import Mathlib

/- Verification of the anycache disk-memoization library.

   The development shallowly embeds the library's four pieces:
   key derivation (`make_key`, a SHA-256 hex digest of a colon-joined
   description of the call), the default serializer (pickle composed with
   base64, `PickleSerializer`), the cache controller (`read` / `write`
   over an explicit filesystem state), and the wrapper variants
   (`sync_wrapper`, `async_wrapper` and the two generator wrappers as
   resumable step machines).  Machine strings are Lean `String`s, bytes
   are natural numbers below 256, the filesystem is a map from file name
   to optional byte content, and exceptions are modelled with `Except`.

   Theorems at the end of the file check each sentence of the
   specification's caching contract against this embedding. -/

/-! ## SHA-256 over byte lists

    Model of `hashlib.sha256(...).hexdigest()` used by `make_key`.
    Bytes and 32-bit words are natural numbers; overflow is explicit
    via reduction modulo 2^32. -/

def w32 (n : Nat) : Nat := n % 4294967296

def rotr32 (k n : Nat) : Nat := w32 (Nat.lor (Nat.shiftRight n k) (Nat.shiftLeft n (32 - k)))

def bigSigma0 (x : Nat) : Nat := Nat.xor (rotr32 2 x) (Nat.xor (rotr32 13 x) (rotr32 22 x))

def bigSigma1 (x : Nat) : Nat := Nat.xor (rotr32 6 x) (Nat.xor (rotr32 11 x) (rotr32 25 x))

def smallSigma0 (x : Nat) : Nat := Nat.xor (rotr32 7 x) (Nat.xor (rotr32 18 x) (Nat.shiftRight x 3))

def smallSigma1 (x : Nat) : Nat := Nat.xor (rotr32 17 x) (Nat.xor (rotr32 19 x) (Nat.shiftRight x 10))

def chF (x y z : Nat) : Nat := Nat.xor (Nat.land x y) (Nat.land (Nat.xor x 4294967295) z)

def majF (x y z : Nat) : Nat := Nat.xor (Nat.land x y) (Nat.xor (Nat.land x z) (Nat.land y z))

def sha256K : List Nat :=
  [1116352408, 1899447441, 3049323471, 3921009573,
   961987163, 1508970993, 2453635748, 2870763221,
   3624381080, 310598401, 607225278, 1426881987,
   1925078388, 2162078206, 2614888103, 3248222580,
   3835390401, 4022224774, 264347078, 604807628,
   770255983, 1249150122, 1555081692, 1996064986,
   2554220882, 2821834349, 2952996808, 3210313671,
   3336571891, 3584528711, 113926993, 338241895,
   666307205, 773529912, 1294757372, 1396182291,
   1695183700, 1986661051, 2177026350, 2456956037,
   2730485921, 2820302411, 3259730800, 3345764771,
   3516065817, 3600352804, 4094571909, 275423344,
   430227734, 506948616, 659060556, 883997877,
   958139571, 1322822218, 1537002063, 1747873779,
   1955562222, 2024104815, 2227730452, 2361852424,
   2428436474, 2756734187, 3204031479, 3329325298]

structure Hash8 where
  a : Nat
  b : Nat
  c : Nat
  d : Nat
  e : Nat
  f : Nat
  g : Nat
  h : Nat

def sha256H0 : Hash8 :=
  ⟨1779033703, 3144134277, 1013904242, 2773480762,
   1359893119, 2600822924, 528734635, 1541459225⟩

/-- Big-endian rendering of `n` on `len` bytes. -/
def toBytesBE : Nat → Nat → List Nat
  | 0, _ => []
  | k + 1, n => toBytesBE k (n / 256) ++ [n % 256]

/-- SHA-256 message padding: a 0x80 byte, zeros to 56 mod 64, then the
    bit length on 8 bytes. -/
def sha256pad (msg : List Nat) : List Nat :=
  msg ++ [128] ++ List.replicate ((119 - msg.length % 64) % 64) 0 ++ toBytesBE 8 (8 * msg.length)

/-- Group bytes into big-endian 32-bit words. -/
def toWords : List Nat → List Nat
  | a :: b :: c :: d :: rest => (a * 16777216 + b * 65536 + c * 256 + d) :: toWords rest
  | _ => []

/-- Extend the 16 block words to the 64-entry message schedule. -/
def sched (w : Array Nat) : Array Nat :=
  (List.range 48).foldl
    (fun acc i =>
      let t := i + 16
      acc.push (w32 (smallSigma1 (acc.getD (t - 2) 0) + acc.getD (t - 7) 0 +
        smallSigma0 (acc.getD (t - 15) 0) + acc.getD (t - 16) 0)))
    w

def roundStep (st : Hash8) (kw : Nat × Nat) : Hash8 :=
  let t1 := w32 (st.h + bigSigma1 st.e + chF st.e st.f st.g + kw.1 + kw.2)
  let t2 := w32 (bigSigma0 st.a + majF st.a st.b st.c)
  ⟨w32 (t1 + t2), st.a, st.b, st.c, w32 (st.d + t1), st.e, st.f, st.g⟩

def compress (hv : Hash8) (block : List Nat) : Hash8 :=
  let w := sched (toWords block).toArray
  let st := (List.range 64).foldl (fun st i => roundStep st (sha256K.getD i 0, w.getD i 0)) hv
  ⟨w32 (hv.a + st.a), w32 (hv.b + st.b), w32 (hv.c + st.c), w32 (hv.d + st.d),
   w32 (hv.e + st.e), w32 (hv.f + st.f), w32 (hv.g + st.g), w32 (hv.h + st.h)⟩

def sha256blocks (hv : Hash8) (bs : List Nat) : Hash8 :=
  match bs with
  | [] => hv
  | b :: rest => sha256blocks (compress hv ((b :: rest).take 64)) ((b :: rest).drop 64)
termination_by bs.length
decreasing_by simp [List.length_drop]; omega

def sha256bytes (msg : List Nat) : List Nat :=
  let hv := sha256blocks sha256H0 (sha256pad msg)
  toBytesBE 4 hv.a ++ toBytesBE 4 hv.b ++ toBytesBE 4 hv.c ++ toBytesBE 4 hv.d ++
  toBytesBE 4 hv.e ++ toBytesBE 4 hv.f ++ toBytesBE 4 hv.g ++ toBytesBE 4 hv.h

def hexDigit (n : Nat) : Char := if n < 10 then Char.ofNat (48 + n) else Char.ofNat (87 + n)

def byteToHex (b : Nat) : String := String.mk [hexDigit (b / 16), hexDigit (b % 16)]

/-- UTF-8 bytes of a string, as natural numbers. -/
def strBytes (s : String) : List Nat := s.toUTF8.toList.map (fun b => b.toNat)

/-- Model of `hashlib.sha256(string.encode("utf-8")).hexdigest()`. -/
def sha256hex (s : String) : String := String.join ((sha256bytes (strBytes s)).map byteToHex)

/-! ## Key derivation (`CacheWrapper.make_key`)

    Positional arguments appear through their `str(...)` rendering, so they
    enter the model as the rendered strings; keyword arguments enter as
    rendered `(key, value)` string pairs.  `sorted(kwargs.items())` compares
    the key tuples componentwise, and dictionary keys are unique, so sorting
    is by key. -/

/-- Model of Python `sep.join(xs)`. -/
def pyJoin (sep : String) : List String → String
  | [] => ""
  | [x] => x
  | x :: y :: t => x ++ sep ++ pyJoin sep (y :: t)

def insertKw (p : String × String) : List (String × String) → List (String × String)
  | [] => [p]
  | q :: t => if p.1 < q.1 then p :: q :: t else q :: insertKw p t

/-- Model of `sorted(kwargs.items())` (stable sort by key). -/
def sortKw : List (String × String) → List (String × String)
  | [] => []
  | p :: t => insertKw p (sortKw t)

/-- Model of `CacheWrapper.make_key`: drops the first positional argument
    when `is_method` is set, renders the three key parts, keeps the
    non-empty ones, colon-joins them and hashes. -/
def make_key (is_method : Bool) (func_name : String) (args : List String)
    (kwargs : List (String × String)) : String :=
  let args2 := if is_method then args.drop 1 else args
  let keyParts : List String :=
    [func_name,
     pyJoin "_" args2,
     pyJoin "_" ((sortKw kwargs).map (fun kv => kv.1 ++ "=" ++ kv.2))]
  sha256hex (pyJoin ":" (keyParts.filter (fun kp => kp != "")))

/-- Reference definition of the cache key, following the specification's
    wording: the digest of a colon-joined string composed of the function
    name, the underscore-joined positional arguments (excluding the implicit
    first one for a bound method), and the underscore-joined `key=value`
    pairs sorted by key, where each of the three components is omitted from
    the join when empty. -/
def spec_make_key (is_method : Bool) (func_name : String) (args : List String)
    (kwargs : List (String × String)) : String :=
  let posComp := pyJoin "_" (if is_method then args.tail else args)
  let kwComp := pyJoin "_" ((sortKw kwargs).map (fun kv => kv.1 ++ "=" ++ kv.2))
  let comps :=
    (if func_name = "" then [] else [func_name]) ++
    (if posComp = "" then [] else [posComp]) ++
    (if kwComp = "" then [] else [kwComp])
  sha256hex (pyJoin ":" comps)

lemma filter_ne_empty_triple (a b c : String) :
    [a, b, c].filter (fun kp => kp != "") =
      (if a = "" then [] else [a]) ++ (if b = "" then [] else [b]) ++
      (if c = "" then [] else [c]) := by
  by_cases ha : a = "" <;> by_cases hb : b = "" <;> by_cases hc : c = "" <;>
    simp [List.filter_cons, ha, hb, hc]

/-- Claim C2: `make_key` is a pure, deterministic function equal to the
    reference definition written from the specification's wording; in
    particular, with the bound-method flag set, two calls that differ only
    in the receiver map to the same key. -/
theorem make_key_matches_spec :
    (∀ (is_method : Bool) (func_name : String) (args : List String)
        (kwargs : List (String × String)),
        make_key is_method func_name args kwargs =
          spec_make_key is_method func_name args kwargs) ∧
    (∀ (func_name recv₁ recv₂ : String) (rest : List String)
        (kwargs : List (String × String)),
        make_key true func_name (recv₁ :: rest) kwargs =
          make_key true func_name (recv₂ :: rest) kwargs) := by
  constructor
  · intro is_method func_name args kwargs
    simp only [make_key, spec_make_key]
    rw [filter_ne_empty_triple, List.drop_one]
  · intro func_name recv₁ recv₂ rest kwargs
    simp [make_key]

/-! ## Base64 layer of the default serializer

    Models `base64.encodebytes` / `base64.decodebytes` from the standard
    library, as used by `PickleSerializer`.  `encodebytes` emits 57-byte
    chunks as newline-terminated 76-character base64 lines; `decodebytes`
    discards characters outside the base64 alphabet and decodes
    four-character groups, `=` padding closing the data. -/

def b64alphabet : List Nat :=
  ((List.range 26).map (fun i => 65 + i)) ++ ((List.range 26).map (fun i => 97 + i)) ++
  ((List.range 10).map (fun i => 48 + i)) ++ [43, 47]

def sextetChar (s : Nat) : Nat := b64alphabet.getD s 0

def sextetOf (c : Nat) : Nat := b64alphabet.indexOf c

def isB64Char (c : Nat) : Bool := b64alphabet.contains c || c == 61

/-- Base64 characters of one chunk with `=` padding
    (`binascii.b2a_base64` minus the trailing newline). -/
def b2aChars : List Nat → List Nat
  | [] => []
  | [b0] => [sextetChar (b0 / 4), sextetChar (b0 % 4 * 16), 61, 61]
  | [b0, b1] => [sextetChar (b0 / 4), sextetChar (b0 % 4 * 16 + b1 / 16),
                 sextetChar (b1 % 16 * 4), 61]
  | b0 :: b1 :: b2 :: t =>
      sextetChar (b0 / 4) :: sextetChar (b0 % 4 * 16 + b1 / 16) ::
      sextetChar (b1 % 16 * 4 + b2 / 64) :: sextetChar (b2 % 64) :: b2aChars t

/-- Model of `base64.encodebytes`. -/
def encodebytes (s : List Nat) : List Nat :=
  match s with
  | [] => []
  | b :: rest => b2aChars ((b :: rest).take 57) ++ [10] ++ encodebytes ((b :: rest).drop 57)
termination_by s.length
decreasing_by simp [List.length_drop]; omega

/-- Decoding of the filtered character stream (`binascii.a2b_base64`). -/
def a2bChars : List Nat → List Nat
  | c0 :: c1 :: c2 :: c3 :: rest =>
      if c2 == 61 then [sextetOf c0 * 4 + sextetOf c1 / 16]
      else if c3 == 61 then
        [sextetOf c0 * 4 + sextetOf c1 / 16, sextetOf c1 % 16 * 16 + sextetOf c2 / 4]
      else
        (sextetOf c0 * 4 + sextetOf c1 / 16) :: (sextetOf c1 % 16 * 16 + sextetOf c2 / 4) ::
        (sextetOf c2 % 4 * 64 + sextetOf c3) :: a2bChars rest
  | _ => []

/-- Model of `base64.decodebytes`. -/
def decodebytes (s : List Nat) : List Nat := a2bChars (s.filter isB64Char)

lemma sextetOf_sextetChar : ∀ s, s < 64 → sextetOf (sextetChar s) = s := by decide

lemma isB64Char_sextetChar : ∀ s, s < 64 → isB64Char (sextetChar s) = true := by decide

lemma sextetChar_ne_pad : ∀ s, s < 64 → sextetChar s ≠ 61 := by decide

lemma isB64Char_newline : isB64Char 10 = false := by decide

lemma isB64Char_padChar : isB64Char 61 = true := by decide

lemma mem_b2aChars_isB64 (c : List Nat) (hc : ∀ b ∈ c, b < 256) :
    ∀ x ∈ b2aChars c, isB64Char x = true := by
  induction c using b2aChars.induct with
  | case1 => simp [b2aChars]
  | case2 b0 =>
      have h0 := hc b0 (by simp)
      simp only [b2aChars, List.mem_cons, List.not_mem_nil, or_false]
      rintro x (rfl | rfl | rfl | rfl)
      · exact isB64Char_sextetChar _ (by omega)
      · exact isB64Char_sextetChar _ (by omega)
      · exact isB64Char_padChar
      · exact isB64Char_padChar
  | case3 b0 b1 =>
      have h0 := hc b0 (by simp)
      have h1 := hc b1 (by simp)
      simp only [b2aChars, List.mem_cons, List.not_mem_nil, or_false]
      rintro x (rfl | rfl | rfl | rfl)
      · exact isB64Char_sextetChar _ (by omega)
      · exact isB64Char_sextetChar _ (by omega)
      · exact isB64Char_sextetChar _ (by omega)
      · exact isB64Char_padChar
  | case4 b0 b1 b2 t ih =>
      have h0 := hc b0 (by simp)
      have h1 := hc b1 (by simp)
      have h2 := hc b2 (by simp)
      have ih2 := ih (fun b hb => hc b (by simp [hb]))
      simp only [b2aChars, List.mem_cons]
      rintro x (rfl | rfl | rfl | rfl | hx)
      · exact isB64Char_sextetChar _ (by omega)
      · exact isB64Char_sextetChar _ (by omega)
      · exact isB64Char_sextetChar _ (by omega)
      · exact isB64Char_sextetChar _ (by omega)
      · exact ih2 x hx

lemma a2bChars_b2aChars (c tail : List Nat) (hc : ∀ b ∈ c, b < 256)
    (h3 : c.length % 3 = 0 ∨ tail = []) :
    a2bChars (b2aChars c ++ tail) = c ++ a2bChars tail := by
  induction c using b2aChars.induct with
  | case1 => simp [b2aChars]
  | case2 b0 =>
      have htail : tail = [] := by
        rcases h3 with h3 | h3
        · simp at h3
        · exact h3
      subst htail
      have h0 := hc b0 (by simp)
      have e1 := sextetOf_sextetChar (b0 / 4) (by omega)
      have e2 := sextetOf_sextetChar (b0 % 4 * 16) (by omega)
      simp only [b2aChars, List.cons_append, List.nil_append, a2bChars, beq_self_eq_true,
        if_true, e1, e2, List.append_nil]
      have : b0 / 4 * 4 + b0 % 4 * 16 / 16 = b0 := by omega
      rw [this]
  | case3 b0 b1 =>
      have htail : tail = [] := by
        rcases h3 with h3 | h3
        · simp at h3
        · exact h3
      subst htail
      have h0 := hc b0 (by simp)
      have h1 := hc b1 (by simp)
      have ne2 : sextetChar (b1 % 16 * 4) ≠ 61 := sextetChar_ne_pad _ (by omega)
      have e0 := sextetOf_sextetChar (b0 / 4) (by omega)
      have e1 := sextetOf_sextetChar (b0 % 4 * 16 + b1 / 16) (by omega)
      have e2 := sextetOf_sextetChar (b1 % 16 * 4) (by omega)
      simp only [b2aChars, List.cons_append, List.nil_append, a2bChars, beq_iff_eq,
        if_neg ne2, beq_self_eq_true, if_true, e0, e1, e2, List.append_nil]
      have r0 : b0 / 4 * 4 + (b0 % 4 * 16 + b1 / 16) / 16 = b0 := by omega
      have r1 : (b0 % 4 * 16 + b1 / 16) % 16 * 16 + b1 % 16 * 4 / 4 = b1 := by omega
      rw [r0, r1]
  | case4 b0 b1 b2 t ih =>
      have h0 := hc b0 (by simp)
      have h1 := hc b1 (by simp)
      have h2 := hc b2 (by simp)
      have ih2 := ih (fun b hb => hc b (by simp [hb]))
        (by
          rcases h3 with h3 | h3
          · left; simp only [List.length_cons] at h3; omega
          · right; exact h3)
      have ne2 : sextetChar (b1 % 16 * 4 + b2 / 64) ≠ 61 := sextetChar_ne_pad _ (by omega)
      have ne3 : sextetChar (b2 % 64) ≠ 61 := sextetChar_ne_pad _ (by omega)
      have e0 := sextetOf_sextetChar (b0 / 4) (by omega)
      have e1 := sextetOf_sextetChar (b0 % 4 * 16 + b1 / 16) (by omega)
      have e2 := sextetOf_sextetChar (b1 % 16 * 4 + b2 / 64) (by omega)
      have e3 := sextetOf_sextetChar (b2 % 64) (by omega)
      simp only [b2aChars, List.cons_append, List.append_eq, a2bChars, beq_iff_eq,
        if_neg ne2, if_neg ne3, e0, e1, e2, e3, ih2]
      have r0 : b0 / 4 * 4 + (b0 % 4 * 16 + b1 / 16) / 16 = b0 := by omega
      have r1 : (b0 % 4 * 16 + b1 / 16) % 16 * 16 + (b1 % 16 * 4 + b2 / 64) / 4 = b1 := by omega
      have r2 : (b1 % 16 * 4 + b2 / 64) % 4 * 64 + b2 % 64 = b2 := by omega
      rw [r0, r1, r2]

/-- The base64 layer of the default serializer round-trips exactly. -/
theorem decodebytes_encodebytes (s : List Nat) (hs : ∀ b ∈ s, b < 256) :
    decodebytes (encodebytes s) = s := by
  induction s using encodebytes.induct with
  | case1 => simp [encodebytes, decodebytes, a2bChars]
  | case2 b rest ih =>
      have hsub : ∀ x ∈ (b :: rest).take 57, x < 256 :=
        fun x hx => hs x (List.take_subset _ _ hx)
      have hdropsub : ∀ x ∈ (b :: rest).drop 57, x < 256 :=
        fun x hx => hs x (List.drop_subset _ _ hx)
      have ih2 := ih hdropsub
      rw [encodebytes]
      unfold decodebytes
      rw [List.filter_append, List.filter_append,
        List.filter_eq_self.mpr (mem_b2aChars_isB64 _ hsub)]
      have hnl : List.filter isB64Char [10] = [] := by
        simp [isB64Char_newline]
      rw [hnl]
      simp only [List.append_nil, List.nil_append]
      by_cases hlen : (b :: rest).length ≤ 57
      · have hdrop : (b :: rest).drop 57 = [] := List.drop_eq_nil_of_le hlen
        have htake : (b :: rest).take 57 = b :: rest := List.take_of_length_le hlen
        rw [hdrop, htake]
        have henil : encodebytes [] = [] := by simp [encodebytes]
        rw [henil]
        simp only [List.filter_nil]
        rw [a2bChars_b2aChars _ _ hs (Or.inr rfl)]
        simp [a2bChars]
      · have htakelen : ((b :: rest).take 57).length = 57 := by
          rw [List.length_take]
          omega
        rw [a2bChars_b2aChars _ _ hsub (Or.inl (by rw [htakelen]))]
        show (b :: rest).take 57 ++ decodebytes (encodebytes ((b :: rest).drop 57)) = b :: rest
        rw [ih2, List.take_append_drop]

/-! ## Python values and the object-graph serialization

    Model of the host object-graph serialization (`pickle`).  The
    specification treats it as an external collaborator and requires only
    that it is a byte-safe encoding of a general object graph that decodes
    back to an equal value; this model realizes that contract for the
    primitives (`None`, booleans, integers, strings) and ordered sequences
    of primitives that the specification's round-trip law names. -/

inductive PyPrim where
  | pnone
  | pbool (b : Bool)
  | pint (n : Int)
  | pstr (s : String)
deriving DecidableEq

inductive PyVal where
  | prim (p : PyPrim)
  | plist (ps : List PyPrim)
deriving DecidableEq

/-- The Python `None` value, which the wrappers use as the miss sentinel. -/
def pyNone : PyVal := .prim .pnone

def encVarNat (n : Nat) : List Nat :=
  if n < 128 then [n] else (n % 128 + 128) :: encVarNat (n / 128)
termination_by n
decreasing_by omega

def decVarNat : List Nat → Option (Nat × List Nat)
  | [] => none
  | b :: rest =>
    if b < 128 then some (b, rest)
    else
      match decVarNat rest with
      | some (m, r) => some (b - 128 + 128 * m, r)
      | none => none

def encChar (c : Char) : List Nat := encVarNat c.toNat

def decChar (bs : List Nat) : Option (Char × List Nat) :=
  match decVarNat bs with
  | some (n, r) => some (Char.ofNat n, r)
  | none => none

def encPrim : PyPrim → List Nat
  | .pnone => [0]
  | .pbool b => [1, cond b 1 0]
  | .pint n => 2 :: (if n < 0 then 1 else 0) :: encVarNat n.natAbs
  | .pstr s => 3 :: (encVarNat s.data.length ++ (s.data.map encChar).flatten)

def decChars : Nat → List Nat → Option (List Char × List Nat)
  | 0, bs => some ([], bs)
  | k + 1, bs =>
    match decChar bs with
    | some (c, r) =>
      match decChars k r with
      | some (cs, r2) => some (c :: cs, r2)
      | none => none
    | none => none

def decPrim : List Nat → Option (PyPrim × List Nat)
  | 0 :: r => some (.pnone, r)
  | 1 :: b :: r => some (.pbool (b == 1), r)
  | 2 :: sgn :: r =>
    (match decVarNat r with
     | some (m, r2) => some (.pint (if sgn == 1 then -(m : Int) else (m : Int)), r2)
     | none => none)
  | 3 :: r =>
    (match decVarNat r with
     | some (len, r2) =>
       match decChars len r2 with
       | some (cs, r3) => some (.pstr (String.mk cs), r3)
       | none => none
     | none => none)
  | _ => none

def pickleDumps : PyVal → List Nat
  | .prim p => 0 :: encPrim p
  | .plist ps => 1 :: (encVarNat ps.length ++ (ps.map encPrim).flatten)

def decPrims : Nat → List Nat → Option (List PyPrim × List Nat)
  | 0, bs => some ([], bs)
  | k + 1, bs =>
    match decPrim bs with
    | some (p, r) =>
      match decPrims k r with
      | some (ps, r2) => some (p :: ps, r2)
      | none => none
    | none => none

def pickleLoads : List Nat → Option PyVal
  | 0 :: r =>
    (match decPrim r with
     | some (p, []) => some (.prim p)
     | _ => none)
  | 1 :: r =>
    (match decVarNat r with
     | some (len, r2) =>
       match decPrims len r2 with
       | some (ps, []) => some (.plist ps)
       | _ => none
     | _ => none)
  | _ => none

lemma decVarNat_encVarNat (n : Nat) (rest : List Nat) :
    decVarNat (encVarNat n ++ rest) = some (n, rest) := by
  induction n using encVarNat.induct with
  | case1 n h => simp [encVarNat, decVarNat, h]
  | case2 n h ih =>
      rw [encVarNat, if_neg h, List.cons_append, decVarNat]
      rw [if_neg (by omega), ih]
      have heq : n % 128 + 128 - 128 + 128 * (n / 128) = n := by omega
      simp [heq]
      omega

lemma encVarNat_lt (n : Nat) : ∀ b ∈ encVarNat n, b < 256 := by
  induction n using encVarNat.induct with
  | case1 n h =>
      rw [encVarNat, if_pos h]
      intro b hb
      simp at hb
      omega
  | case2 n h ih =>
      rw [encVarNat, if_neg h]
      intro b hb
      rcases List.mem_cons.mp hb with rfl | hb2
      · omega
      · exact ih b hb2

lemma decChar_encChar (c : Char) (rest : List Nat) :
    decChar (encChar c ++ rest) = some (c, rest) := by
  simp [decChar, encChar, decVarNat_encVarNat, Char.ofNat_toNat]

lemma decChars_encChars (cs : List Char) (rest : List Nat) :
    decChars cs.length ((cs.map encChar).flatten ++ rest) = some (cs, rest) := by
  induction cs with
  | nil => simp [decChars]
  | cons c t ih =>
      simp only [List.map_cons, List.flatten_cons, List.length_cons, List.append_assoc]
      rw [decChars, decChar_encChar]
      simp [ih]

lemma stringMk_data (s : String) : String.mk s.data = s := by
  cases s
  rfl

lemma decPrim_encPrim (p : PyPrim) (rest : List Nat) :
    decPrim (encPrim p ++ rest) = some (p, rest) := by
  cases p with
  | pnone => simp [encPrim, decPrim]
  | pbool b => cases b <;> simp [encPrim, decPrim]
  | pint n =>
      by_cases hn : n < 0
      · simp [encPrim, if_pos hn, decPrim, decVarNat_encVarNat, abs_of_neg hn]
      · have habs : ((n.natAbs : Nat) : Int) = n := by omega
        simp [encPrim, if_neg hn, decPrim, decVarNat_encVarNat, habs]
  | pstr s =>
      have hd : decChars s.length ((s.data.map encChar).flatten ++ rest) = some (s.data, rest) :=
        decChars_encChars s.data rest
      simp [encPrim, decPrim, decVarNat_encVarNat, hd, stringMk_data]

lemma decPrims_encPrims (ps : List PyPrim) (rest : List Nat) :
    decPrims ps.length ((ps.map encPrim).flatten ++ rest) = some (ps, rest) := by
  induction ps with
  | nil => simp [decPrims]
  | cons p t ih =>
      simp only [List.map_cons, List.flatten_cons, List.length_cons, List.append_assoc]
      rw [decPrims, decPrim_encPrim]
      simp [ih]

lemma pickleLoads_pickleDumps (v : PyVal) : pickleLoads (pickleDumps v) = some v := by
  cases v with
  | prim p =>
      have h := decPrim_encPrim p []
      rw [List.append_nil] at h
      simp [pickleDumps, pickleLoads, h]
  | plist ps =>
      have h := decPrims_encPrims ps []
      rw [List.append_nil] at h
      simp [pickleDumps, pickleLoads, decVarNat_encVarNat, h]

lemma encPrim_lt (p : PyPrim) : ∀ b ∈ encPrim p, b < 256 := by
  cases p with
  | pnone => simp [encPrim]
  | pbool b => cases b <;> simp [encPrim]
  | pint n =>
      intro b hb
      simp only [encPrim, List.mem_cons] at hb
      rcases hb with rfl | hb
      · omega
      rcases hb with rfl | hb
      · split <;> omega
      · exact encVarNat_lt _ b hb
  | pstr s =>
      intro b hb
      simp only [encPrim, List.mem_cons, List.mem_append] at hb
      rcases hb with rfl | hb | hb
      · omega
      · exact encVarNat_lt _ b hb
      · obtain ⟨l, hl, hbl⟩ := List.mem_flatten.mp hb
        obtain ⟨c, _, rfl⟩ := List.mem_map.mp hl
        exact encVarNat_lt _ b hbl

lemma pickleDumps_lt (v : PyVal) : ∀ b ∈ pickleDumps v, b < 256 := by
  cases v with
  | prim p =>
      intro b hb
      rcases List.mem_cons.mp hb with rfl | hb
      · omega
      · exact encPrim_lt p b hb
  | plist ps =>
      intro b hb
      rcases List.mem_cons.mp hb with rfl | hb
      · omega
      rcases List.mem_append.mp hb with hb | hb
      · exact encVarNat_lt _ b hb
      · obtain ⟨l, hl, hbl⟩ := List.mem_flatten.mp hb
        obtain ⟨p, _, rfl⟩ := List.mem_map.mp hl
        exact encPrim_lt p b hbl

/-! ## Serializer interface and the default `PickleSerializer` -/

/-- The pluggable serializer capability: `dumps` to bytes, `loads` back.
    `none` models the method raising an exception. -/
structure Serializer where
  dumps : PyVal → Option (List Nat)
  loads : List Nat → Option PyVal

/-- Model of the default `PickleSerializer`: `dumps` pickles then
    base64-encodes, `loads` base64-decodes then unpickles.  Its `dumps`
    never raises on the modelled value universe, hence always `some`. -/
def PickleSerializer : Serializer :=
  ⟨fun obj => some (encodebytes (pickleDumps obj)),
   fun blob => pickleLoads (decodebytes blob)⟩

/-- Claim C6: for the default serializer, `decode (encode x) = x` for every
    value the underlying object-graph serialization supports (including
    ordered sequences of primitives, present in `PyVal` as `plist`), and the
    base64 layer composed with the object encoding round-trips exactly. -/
theorem serializer_roundtrip_law :
    (∀ v : PyVal, ∃ blob, PickleSerializer.dumps v = some blob ∧
        PickleSerializer.loads blob = some v) ∧
    (∀ bs : List Nat, (∀ b ∈ bs, b < 256) → decodebytes (encodebytes bs) = bs) := by
  constructor
  · intro v
    refine ⟨encodebytes (pickleDumps v), rfl, ?_⟩
    show pickleLoads (decodebytes (encodebytes (pickleDumps v))) = some v
    rw [decodebytes_encodebytes _ (pickleDumps_lt v), pickleLoads_pickleDumps]
  · exact decodebytes_encodebytes

/-- Witness for C6: the base64 layer round-trips on the concrete byte list
    `[1, 250, 3]`, and the full serializer round-trips the concrete list
    value `[4, 5]`. -/
theorem serializer_roundtrip_law_witness :
    ((∀ b ∈ [1, 250, 3], b < 256) ∧ decodebytes (encodebytes [1, 250, 3]) = [1, 250, 3]) ∧
    (∃ blob, PickleSerializer.dumps (.plist [.pint 4, .pint 5]) = some blob ∧
        PickleSerializer.loads blob = some (.plist [.pint 4, .pint 5])) :=
  ⟨⟨by decide, serializer_roundtrip_law.2 [1, 250, 3] (by decide)⟩,
   serializer_roundtrip_law.1 (.plist [.pint 4, .pint 5])⟩

/-! ## Cache controller state and `read` / `write` -/

inductive PyErr where
  | typeError
  | osError
  | serializeError
  | writeError
  | userError (n : Nat)
deriving DecidableEq

/-- The cache directory: the entry file's byte content for each key,
    `none` when no entry file exists. -/
abbrev CacheState := String → Option (List Nat)

def update (s : CacheState) (k : String) (v : Option (List Nat)) : CacheState :=
  fun k2 => if k2 = k then v else s k2

/-- Model of `CacheWrapper.read`: derive the key; an absent file is a miss
    (Python `None`, here `pyNone`); a deserialization failure unlinks the
    file inside the `except` clause and is a miss; otherwise the decoded
    content is returned. -/
def CacheWrapper_read (ser : Serializer) (is_method : Bool) (func_name : String) (args : List String)
    (kwargs : List (String × String)) (s : CacheState) : PyVal × CacheState :=
  match s (make_key is_method func_name args kwargs) with
  | none => (pyNone, s)
  | some blob =>
    match ser.loads blob with
    | none => (pyNone, update s (make_key is_method func_name args kwargs) none)
    | some content => (content, s)

/-- Model of the body of `CacheWrapper.write` before its `except` clause:
    opening the entry file in `"wb"` mode creates/truncates it, then
    `dumps` runs, then the bytes are written (`fs_fail` injects a
    filesystem failure of that write).  A raised error carries the state
    at the moment of raising. -/
def CacheWrapper_writeAttempt (ser : Serializer) (fs_fail : Bool) (is_method : Bool) (content : PyVal)
    (func_name : String) (args : List String) (kwargs : List (String × String))
    (s : CacheState) : Except (PyErr × CacheState) CacheState :=
  let opened := update s (make_key is_method func_name args kwargs) (some [])
  match ser.dumps content with
  | none => .error (.serializeError, opened)
  | some blob =>
    if fs_fail then .error (.writeError, opened)
    else .ok (update opened (make_key is_method func_name args kwargs) (some blob))

/-- Model of `CacheWrapper.write`: on any failure the entry file is
    unlinked and the error is swallowed (only logged). -/
def CacheWrapper_write (ser : Serializer) (fs_fail : Bool) (is_method : Bool) (content : PyVal)
    (func_name : String) (args : List String) (kwargs : List (String × String))
    (s : CacheState) : CacheState :=
  match CacheWrapper_writeAttempt ser fs_fail is_method content func_name args kwargs s with
  | .ok s2 => s2
  | .error (_, s2) => update s2 (make_key is_method func_name args kwargs) none

/-- Result of one wrapped call: the returned value or propagated
    exception, the cache state afterwards, and how many times the
    underlying function ran during the call. -/
structure RunRes where
  result : Except PyErr PyVal
  state : CacheState
  calls : Nat

/-- Model of `CacheWrapper.sync_wrapper`.  The underlying function's
    behaviour at the given arguments is `func` (deterministic: identical
    arguments give the same outcome). -/
def sync_wrapper (ser : Serializer) (fs_fail : Bool) (is_method : Bool) (func_name : String)
    (args : List String) (kwargs : List (String × String)) (func : Except PyErr PyVal)
    (s : CacheState) : RunRes :=
  match CacheWrapper_read ser is_method func_name args kwargs s with
  | (hit, s1) =>
    if hit ≠ pyNone then ⟨.ok hit, s1, 0⟩
    else
      match func with
      | .error e => ⟨.error e, s1, 1⟩
      | .ok content =>
          ⟨.ok content, CacheWrapper_write ser fs_fail is_method content func_name args kwargs s1, 1⟩

/-- Model of `CacheWrapper.async_wrapper`: the same read/compute/write
    protocol, with the single await point erased (the controller's
    read/write are synchronous, non-suspending calls even in the
    asynchronous wrappers). -/
def async_wrapper (ser : Serializer) (fs_fail : Bool) (is_method : Bool) (func_name : String)
    (args : List String) (kwargs : List (String × String)) (func : Except PyErr PyVal)
    (s : CacheState) : RunRes :=
  match CacheWrapper_read ser is_method func_name args kwargs s with
  | (hit, s1) =>
    if hit ≠ pyNone then ⟨.ok hit, s1, 0⟩
    else
      match func with
      | .error e => ⟨.error e, s1, 1⟩
      | .ok content =>
          ⟨.ok content, CacheWrapper_write ser fs_fail is_method content func_name args kwargs s1, 1⟩

/-! ## Generator wrappers as resumable step machines

    A Python generator runs nothing until its first `next(...)`; each
    resumption runs the body to the next `yield`, to `return`, or to an
    uncaught exception.  The machine state records where the body is
    suspended; the wrapped source generator is abstracted by the finite
    sequence `src` of items it would yield. -/

inductive GenPhase where
  | start
  | replay (items : List PyPrim)
  | consume (pending : List PyPrim) (content : List PyPrim)
  | finished

structure GenSt where
  phase : GenPhase
  cache : CacheState

inductive GenOut where
  | yields (p : PyPrim)
  | stop
  | raises (e : PyErr)

/-- One resumption of the generator made by `CacheWrapper.sync_gen_wrapper`:
    the first resumption runs the body up to the `read` and the first item;
    on a hit the stored list replays (`yield from hit`); on a miss the
    source items are forwarded one by one while being accumulated, and
    exhausting the source runs `write` on the accumulated list before the
    final `StopIteration`. -/
def sync_gen_step (ser : Serializer) (fs_fail : Bool) (is_method : Bool) (func_name : String)
    (args : List String) (kwargs : List (String × String)) (src : List PyPrim)
    (st : GenSt) : GenOut × GenSt :=
  match st.phase with
  | .start =>
    match CacheWrapper_read ser is_method func_name args kwargs st.cache with
    | (hit, s1) =>
      if hit ≠ pyNone then
        match hit with
        | .plist ps =>
          match ps with
          | [] => (.stop, ⟨.finished, s1⟩)
          | p :: rest => (.yields p, ⟨.replay rest, s1⟩)
        | .prim _ => (.raises .typeError, ⟨.finished, s1⟩)
      else
        match src with
        | [] =>
            (.stop,
             ⟨.finished, CacheWrapper_write ser fs_fail is_method (.plist []) func_name args kwargs s1⟩)
        | p :: rest => (.yields p, ⟨.consume rest [p], s1⟩)
  | .replay items =>
    match items with
    | [] => (.stop, ⟨.finished, st.cache⟩)
    | p :: rest => (.yields p, ⟨.replay rest, st.cache⟩)
  | .consume pending content =>
    match pending with
    | [] =>
        (.stop,
         ⟨.finished, CacheWrapper_write ser fs_fail is_method (.plist content) func_name args kwargs st.cache⟩)
    | p :: rest => (.yields p, ⟨.consume rest (content ++ [p]), st.cache⟩)
  | .finished => (.stop, ⟨.finished, st.cache⟩)

/-- Resume the `sync_gen_wrapper` generator `k` times, collecting the
    yielded items; a consumer that abandons iteration simply stops
    resuming. -/
def sync_gen_run (ser : Serializer) (fs_fail : Bool) (is_method : Bool) (func_name : String)
    (args : List String) (kwargs : List (String × String)) (src : List PyPrim)
    (k : Nat) (st : GenSt) : List PyPrim × GenSt :=
  match k with
  | 0 => ([], st)
  | k + 1 =>
    match sync_gen_step ser fs_fail is_method func_name args kwargs src st with
    | (.yields p, st2) =>
      match sync_gen_run ser fs_fail is_method func_name args kwargs src k st2 with
      | (ys, stf) => (p :: ys, stf)
    | (_, st2) => ([], st2)

/-- One resumption of the generator made by `CacheWrapper.async_gen_wrapper`:
    identical protocol to the synchronous generator wrapper, with the
    asynchronous suspension points erased (single-threaded cooperative
    scheduling, synchronous controller calls). -/
def async_gen_step (ser : Serializer) (fs_fail : Bool) (is_method : Bool) (func_name : String)
    (args : List String) (kwargs : List (String × String)) (src : List PyPrim)
    (st : GenSt) : GenOut × GenSt :=
  match st.phase with
  | .start =>
    match CacheWrapper_read ser is_method func_name args kwargs st.cache with
    | (hit, s1) =>
      if hit ≠ pyNone then
        match hit with
        | .plist ps =>
          match ps with
          | [] => (.stop, ⟨.finished, s1⟩)
          | p :: rest => (.yields p, ⟨.replay rest, s1⟩)
        | .prim _ => (.raises .typeError, ⟨.finished, s1⟩)
      else
        match src with
        | [] =>
            (.stop,
             ⟨.finished, CacheWrapper_write ser fs_fail is_method (.plist []) func_name args kwargs s1⟩)
        | p :: rest => (.yields p, ⟨.consume rest [p], s1⟩)
  | .replay items =>
    match items with
    | [] => (.stop, ⟨.finished, st.cache⟩)
    | p :: rest => (.yields p, ⟨.replay rest, st.cache⟩)
  | .consume pending content =>
    match pending with
    | [] =>
        (.stop,
         ⟨.finished, CacheWrapper_write ser fs_fail is_method (.plist content) func_name args kwargs st.cache⟩)
    | p :: rest => (.yields p, ⟨.consume rest (content ++ [p]), st.cache⟩)
  | .finished => (.stop, ⟨.finished, st.cache⟩)

/-- Resume the `async_gen_wrapper` generator `k` times. -/
def async_gen_run (ser : Serializer) (fs_fail : Bool) (is_method : Bool) (func_name : String)
    (args : List String) (kwargs : List (String × String)) (src : List PyPrim)
    (k : Nat) (st : GenSt) : List PyPrim × GenSt :=
  match k with
  | 0 => ([], st)
  | k + 1 =>
    match async_gen_step ser fs_fail is_method func_name args kwargs src st with
    | (.yields p, st2) =>
      match async_gen_run ser fs_fail is_method func_name args kwargs src k st2 with
      | (ys, stf) => (p :: ys, stf)
    | (_, st2) => ([], st2)

/-! ## The public `cache` decorator and `CacheWrapper.__init__` -/

/-- An established wrapping: the effective storage directory, the method
    flag, and the serializer in use. -/
structure Wrapper where
  cache_dir : String
  is_method : Bool
  serializer : Serializer

/-- Model of `CacheWrapper.__init__`: `Path(cache_dir)` raises `TypeError`
    when `cache_dir` is `None`; a dotted namespace becomes nested
    subdirectories; `mkdir(parents=True, exist_ok=True)` raises an
    `OSError` exactly when directory creation is impossible
    (`mkdir_ok = false`); the serializer defaults to `PickleSerializer`. -/
def CacheWrapper_init (cache_dir : Option String) (nsp : Option String) (is_method : Bool)
    (serializer : Option Serializer) (mkdir_ok : Bool) : Except PyErr Wrapper :=
  match cache_dir with
  | none => .error .typeError
  | some d =>
    let dir :=
      match nsp with
      | some n => pyJoin "/" (d :: n.splitOn ".")
      | none => d
    if mkdir_ok then .ok ⟨dir, is_method, serializer.getD PickleSerializer⟩
    else .error .osError

/-- The pending decorator produced by
    `functools.partial(cache, cache_dir=..., namespace=..., is_method=...)`
    on the parameterized path.  Faithfully to the source line, the partial
    captures only these three keyword arguments: `serializer` is not
    forwarded. -/
structure DeferredCache where
  cache_dir : Option String
  nsp : Option String
  is_method : Bool

/-- Model of the public `cache` decorator entry point.  `fn = none` is the
    parameterized usage `@cache(...)`, which returns the pending partial;
    `fn = some ()` is direct application to a callable, which builds the
    `CacheWrapper` and wraps the function. -/
def cache (fn : Option Unit) (cache_dir : Option String) (nsp : Option String)
    (is_method : Bool) (serializer : Option Serializer) (mkdir_ok : Bool) :
    Except PyErr (DeferredCache ⊕ Wrapper) :=
  match fn with
  | none => .ok (.inl ⟨cache_dir, nsp, is_method⟩)
  | some _ => (CacheWrapper_init cache_dir nsp is_method serializer mkdir_ok).map .inr

/-- Applying the stored partial to the decorated function: every keyword
    the partial did not capture takes its default, so `serializer` is
    `None` here. -/
def applyDeferred (p : DeferredCache) (mkdir_ok : Bool) :
    Except PyErr (DeferredCache ⊕ Wrapper) :=
  cache (some ()) p.cache_dir p.nsp p.is_method none mkdir_ok

/-! ## State lemmas for the controller -/

lemma update_self (s : CacheState) (k : String) (v : Option (List Nat)) :
    update s k v k = v := if_pos rfl

lemma update_other (s : CacheState) (k k2 : String) (v : Option (List Nat)) (h : k2 ≠ k) :
    update s k v k2 = s k2 := if_neg h

lemma update_shadow (s : CacheState) (k : String) (v1 v2 : Option (List Nat)) :
    update (update s k v1) k v2 = update s k v2 := by
  funext k2
  unfold update
  by_cases h : k2 = k <;> simp [h]

lemma read_miss (ser : Serializer) (is_method : Bool) (func_name : String)
    (args : List String) (kwargs : List (String × String)) (s : CacheState)
    (h : s (make_key is_method func_name args kwargs) = none) :
    CacheWrapper_read ser is_method func_name args kwargs s = (pyNone, s) := by
  simp only [CacheWrapper_read, h]

lemma read_hit (ser : Serializer) (is_method : Bool) (func_name : String)
    (args : List String) (kwargs : List (String × String)) (s : CacheState)
    (blob : List Nat) (v : PyVal)
    (hb : s (make_key is_method func_name args kwargs) = some blob)
    (hv : ser.loads blob = some v) :
    CacheWrapper_read ser is_method func_name args kwargs s = (v, s) := by
  simp only [CacheWrapper_read, hb, hv]

lemma write_fail_state (ser : Serializer) (fs_fail is_method : Bool) (content : PyVal)
    (func_name : String) (args : List String) (kwargs : List (String × String))
    (s : CacheState) (h : ser.dumps content = none ∨ fs_fail = true) :
    CacheWrapper_write ser fs_fail is_method content func_name args kwargs s =
      update s (make_key is_method func_name args kwargs) none := by
  unfold CacheWrapper_write CacheWrapper_writeAttempt
  rcases h with h | h
  · simp [h, update_shadow]
  · cases hd : ser.dumps content with
    | none => simp [hd, update_shadow]
    | some blob => simp [hd, h, update_shadow]

lemma write_ok_state (ser : Serializer) (fs_fail is_method : Bool) (content : PyVal)
    (func_name : String) (args : List String) (kwargs : List (String × String))
    (s : CacheState) (blob : List Nat)
    (hd : ser.dumps content = some blob) (hf : fs_fail = false) :
    CacheWrapper_write ser fs_fail is_method content func_name args kwargs s =
      update s (make_key is_method func_name args kwargs) (some blob) := by
  unfold CacheWrapper_write CacheWrapper_writeAttempt
  simp [hd, hf, update_shadow]

/-- Claim C3: for a key whose entry file exists but whose stored bytes fail
    to deserialize, `read` deletes the entry file and returns the absent
    result; the deserialization error is caught inside `read` and never
    reaches the caller, and afterwards the key maps to no entry while every
    other file is untouched. -/
theorem read_corrupted_self_heals (ser : Serializer) (is_method : Bool) (func_name : String)
    (args : List String) (kwargs : List (String × String)) (s : CacheState) (blob : List Nat)
    (hb : s (make_key is_method func_name args kwargs) = some blob)
    (hv : ser.loads blob = none) :
    CacheWrapper_read ser is_method func_name args kwargs s =
      (pyNone, update s (make_key is_method func_name args kwargs) none) ∧
    (update s (make_key is_method func_name args kwargs) none)
      (make_key is_method func_name args kwargs) = none ∧
    (∀ k2, k2 ≠ make_key is_method func_name args kwargs →
      (update s (make_key is_method func_name args kwargs) none) k2 = s k2) := by
  refine ⟨?_, update_self _ _ _, fun k2 h => update_other _ _ _ _ h⟩
  simp only [CacheWrapper_read, hb, hv]

/-- Witness for C3: a concrete one-file state whose blob the concrete
    serializer rejects. -/
theorem read_corrupted_self_heals_witness :
    (((fun _ => some [0]) : CacheState) (make_key false "f" [] []) = some [0]) ∧
    ((Serializer.mk (fun _ => some [1]) (fun _ => none)).loads [0] = none) ∧
    CacheWrapper_read (Serializer.mk (fun _ => some [1]) (fun _ => none)) false "f" [] []
        (fun _ => some [0]) =
      (pyNone, update (fun _ => some [0]) (make_key false "f" [] []) none) :=
  ⟨rfl, rfl,
   (read_corrupted_self_heals (Serializer.mk (fun _ => some [1]) (fun _ => none)) false "f"
     [] [] (fun _ => some [0]) [0] rfl rfl).1⟩

/-- Claim C10: a stored value equal to the `None` sentinel is
    indistinguishable from an absent entry at the public interface: when a
    valid entry for the key decodes to `None`, `read` returns the absent
    result, so the wrapped call takes the miss path and invokes the
    underlying function again (one invocation on this call) although a
    valid entry exists. -/
theorem none_sentinel_indistinguishable (ser : Serializer) (is_method : Bool)
    (func_name : String) (args : List String) (kwargs : List (String × String))
    (s : CacheState) (blob : List Nat) (func : Except PyErr PyVal)
    (hb : s (make_key is_method func_name args kwargs) = some blob)
    (hv : ser.loads blob = some pyNone) :
    CacheWrapper_read ser is_method func_name args kwargs s = (pyNone, s) ∧
    ∀ fs_fail, (sync_wrapper ser fs_fail is_method func_name args kwargs func s).calls = 1 := by
  have hr : CacheWrapper_read ser is_method func_name args kwargs s = (pyNone, s) := by
    simp only [CacheWrapper_read, hb, hv]
  refine ⟨hr, fun fs_fail => ?_⟩
  simp only [sync_wrapper, hr]
  rw [if_neg (by simp)]
  cases func <;> rfl

/-- Witness for C10: a concrete state storing a valid pickled `None`. -/
theorem none_sentinel_indistinguishable_witness :
    (((fun _ => some [0]) : CacheState) (make_key false "f" [] []) = some [0]) ∧
    ((Serializer.mk (fun _ => some [1]) (fun _ => some pyNone)).loads [0] = some pyNone) ∧
    CacheWrapper_read (Serializer.mk (fun _ => some [1]) (fun _ => some pyNone)) false "f" [] []
        (fun _ => some [0]) = (pyNone, (fun _ => some [0])) :=
  ⟨rfl, rfl,
   (none_sentinel_indistinguishable (Serializer.mk (fun _ => some [1]) (fun _ => some pyNone))
     false "f" [] [] (fun _ => some [0]) [0] (.ok (.prim (.pint 7))) rfl rfl).1⟩

/-- Claim C9: on a cache miss, a failure of the underlying function
    propagates unchanged out of both the synchronous and the asynchronous
    wrapper, no entry is written (the cache state is unchanged), and no
    retry is attempted (exactly one invocation). -/
theorem miss_function_failure_propagates (ser : Serializer) (fs_fail is_method : Bool)
    (func_name : String) (args : List String) (kwargs : List (String × String))
    (s : CacheState) (e : PyErr)
    (h : s (make_key is_method func_name args kwargs) = none) :
    sync_wrapper ser fs_fail is_method func_name args kwargs (.error e) s =
      ⟨.error e, s, 1⟩ ∧
    async_wrapper ser fs_fail is_method func_name args kwargs (.error e) s =
      ⟨.error e, s, 1⟩ := by
  have hr := read_miss ser is_method func_name args kwargs s h
  constructor
  · simp only [sync_wrapper, hr]
    rw [if_neg (by simp)]
  · simp only [async_wrapper, hr]
    rw [if_neg (by simp)]

/-- Witness for C9: empty cache, concrete user exception. -/
theorem miss_function_failure_propagates_witness :
    (((fun _ => none) : CacheState) (make_key false "f" [] []) = none) ∧
    sync_wrapper (Serializer.mk (fun _ => some [1]) (fun _ => none)) false false "f" [] []
        (.error (.userError 3)) (fun _ => none) = ⟨.error (.userError 3), (fun _ => none), 1⟩ :=
  ⟨rfl,
   (miss_function_failure_propagates (Serializer.mk (fun _ => some [1]) (fun _ => none))
     false false "f" [] [] (fun _ => none) (.userError 3) rfl).1⟩

/-- Claim C4: if serialization or the filesystem write raises during
    `write`, the partially written entry file is deleted, other entries
    are untouched, and the error is swallowed — in particular, on a miss
    the wrapper still returns the freshly computed result even though the
    write failed. -/
theorem write_failure_swallowed (ser : Serializer) (fs_fail is_method : Bool)
    (content : PyVal) (func_name : String) (args : List String)
    (kwargs : List (String × String)) (s : CacheState)
    (h : ser.dumps content = none ∨ fs_fail = true) :
    (CacheWrapper_write ser fs_fail is_method content func_name args kwargs s)
        (make_key is_method func_name args kwargs) = none ∧
    (∀ k2, k2 ≠ make_key is_method func_name args kwargs →
      (CacheWrapper_write ser fs_fail is_method content func_name args kwargs s) k2 = s k2) ∧
    (s (make_key is_method func_name args kwargs) = none →
      sync_wrapper ser fs_fail is_method func_name args kwargs (.ok content) s =
        ⟨.ok content, update s (make_key is_method func_name args kwargs) none, 1⟩) := by
  have hw := write_fail_state ser fs_fail is_method content func_name args kwargs s h
  refine ⟨by rw [hw]; exact update_self _ _ _,
    fun k2 hk => by rw [hw]; exact update_other _ _ _ _ hk,
    fun hmiss => ?_⟩
  have hr := read_miss ser is_method func_name args kwargs s hmiss
  simp only [sync_wrapper, hr]
  rw [if_neg (by simp), hw]

/-- Witness for C4: a serializer whose `dumps` always raises, an empty
    cache, a concrete fresh result that is still returned. -/
theorem write_failure_swallowed_witness :
    ((Serializer.mk (fun _ => none) (fun _ => none)).dumps (.prim (.pint 5)) = none) ∧
    sync_wrapper (Serializer.mk (fun _ => none) (fun _ => none)) false false "f" [] []
        (.ok (.prim (.pint 5))) (fun _ => none) =
      ⟨.ok (.prim (.pint 5)), update (fun _ => none) (make_key false "f" [] []) none, 1⟩ :=
  ⟨rfl,
   (write_failure_swallowed (Serializer.mk (fun _ => none) (fun _ => none)) false false
     (.prim (.pint 5)) "f" [] [] (fun _ => none) (Or.inl rfl)).2.2 rfl⟩

/-- Claim C7 (refuted by the code): using the decorator bare applies
    `cache` directly to the callable with `cache_dir` at its default of
    `None`; `CacheWrapper.__init__` then evaluates `Path(None)`, which
    raises `TypeError` unconditionally.  No library-chosen default
    directory exists in the code, so establishing a bare wrapping always
    fails — even when directory creation would succeed. -/
theorem bare_decorator_raises (nsp : Option String) (is_method : Bool)
    (ser : Option Serializer) (mkdir_ok : Bool) :
    cache (some ()) none nsp is_method ser mkdir_ok = .error .typeError := by
  cases nsp <;> rfl

/-- Claim C8 (refuted by the code): in the parameterized usage the
    `serializer` keyword is accepted but not captured by the
    `functools.partial` that `cache` returns, so applying the returned
    decorator establishes a wrapping whose serializer is the default
    `PickleSerializer`, whatever override was supplied. -/
theorem serializer_override_dropped (d : String) (nsp : Option String) (is_method : Bool)
    (custom : Serializer) :
    cache none (some d) nsp is_method (some custom) true =
      .ok (.inl ⟨some d, nsp, is_method⟩) ∧
    ∃ w : Wrapper, applyDeferred ⟨some d, nsp, is_method⟩ true = .ok (.inr w) ∧
      w.serializer = PickleSerializer := by
  refine ⟨rfl, ?_⟩
  cases nsp with
  | none => exact ⟨⟨d, is_method, PickleSerializer⟩, rfl, rfl⟩
  | some n => exact ⟨⟨pyJoin "/" (d :: n.splitOn "."), is_method, PickleSerializer⟩, rfl, rfl⟩

/-! ## Wrapper call lemmas -/

lemma sync_wrapper_miss_ok_eq (ser : Serializer) (fs_fail is_method : Bool)
    (func_name : String) (args : List String) (kwargs : List (String × String))
    (v : PyVal) (s s1 : CacheState)
    (h : CacheWrapper_read ser is_method func_name args kwargs s = (pyNone, s1)) :
    sync_wrapper ser fs_fail is_method func_name args kwargs (.ok v) s =
      ⟨.ok v, CacheWrapper_write ser fs_fail is_method v func_name args kwargs s1, 1⟩ := by
  simp only [sync_wrapper, h]
  rw [if_neg (by simp)]

lemma sync_wrapper_hit_eq (ser : Serializer) (fs_fail is_method : Bool)
    (func_name : String) (args : List String) (kwargs : List (String × String))
    (func : Except PyErr PyVal) (w : PyVal) (s s1 : CacheState)
    (h : CacheWrapper_read ser is_method func_name args kwargs s = (w, s1))
    (hw : w ≠ pyNone) :
    sync_wrapper ser fs_fail is_method func_name args kwargs func s = ⟨.ok w, s1, 0⟩ := by
  simp only [sync_wrapper, h]
  rw [if_pos hw]

lemma read_corrupt (ser : Serializer) (is_method : Bool) (func_name : String)
    (args : List String) (kwargs : List (String × String)) (s : CacheState)
    (blob : List Nat)
    (hb : s (make_key is_method func_name args kwargs) = some blob)
    (hv : ser.loads blob = none) :
    CacheWrapper_read ser is_method func_name args kwargs s =
      (pyNone, update s (make_key is_method func_name args kwargs) none) := by
  simp only [CacheWrapper_read, hb, hv]

/-- Claim C1, amended: provided the underlying function returns (rather
    than raises) a result different from the `None` sentinel, the
    serializer round-trips that result, and the cache write does not fail,
    calling the wrapped function twice with identical arguments invokes
    the underlying function at most once in total and the second call's
    result equals the first call's result — from any starting cache state.
    (The unamended claim fails when the function's result is `None`; see
    the counterexample.) -/
theorem cached_twice_invokes_once (ser : Serializer) (is_method : Bool) (func_name : String)
    (args : List String) (kwargs : List (String × String)) (s : CacheState)
    (v : PyVal) (blob : List Nat)
    (hd : ser.dumps v = some blob) (hl : ser.loads blob = some v) (hv : v ≠ pyNone) :
    (sync_wrapper ser false is_method func_name args kwargs (.ok v)
        (sync_wrapper ser false is_method func_name args kwargs (.ok v) s).state).result =
      (sync_wrapper ser false is_method func_name args kwargs (.ok v) s).result ∧
    (sync_wrapper ser false is_method func_name args kwargs (.ok v) s).calls +
      (sync_wrapper ser false is_method func_name args kwargs (.ok v)
        (sync_wrapper ser false is_method func_name args kwargs (.ok v) s).state).calls ≤ 1 := by
  have hsecond : ∀ s1 : CacheState,
      sync_wrapper ser false is_method func_name args kwargs (.ok v)
        (CacheWrapper_write ser false is_method v func_name args kwargs s1) =
      ⟨.ok v, update s1 (make_key is_method func_name args kwargs) (some blob), 0⟩ := by
    intro s1
    rw [write_ok_state ser false is_method v func_name args kwargs s1 blob hd rfl]
    exact sync_wrapper_hit_eq ser false is_method func_name args kwargs (.ok v) v _ _
      (read_hit ser is_method func_name args kwargs _ blob v (update_self _ _ _) hl) hv
  cases h0 : s (make_key is_method func_name args kwargs) with
  | none =>
      have e1 := sync_wrapper_miss_ok_eq ser false is_method func_name args kwargs v s s
        (read_miss ser is_method func_name args kwargs s h0)
      rw [e1]
      dsimp only
      rw [hsecond s]
      simp
  | some blob0 =>
      cases h1 : ser.loads blob0 with
      | none =>
          have e1 := sync_wrapper_miss_ok_eq ser false is_method func_name args kwargs v s _
            (read_corrupt ser is_method func_name args kwargs s blob0 h0 h1)
          rw [e1]
          dsimp only
          rw [hsecond _]
          simp
      | some w =>
          by_cases hw : w = pyNone
          · subst hw
            have e1 := sync_wrapper_miss_ok_eq ser false is_method func_name args kwargs v s s
              (read_hit ser is_method func_name args kwargs s blob0 pyNone h0 h1)
            rw [e1]
            dsimp only
            rw [hsecond s]
            simp
          · have e1 := sync_wrapper_hit_eq ser false is_method func_name args kwargs (.ok v)
              w s s (read_hit ser is_method func_name args kwargs s blob0 w h0 h1) hw
            rw [e1]
            dsimp only
            rw [e1]
            simp

/-- Counterexample to claim C1 as stated: with the default serializer and
    an initially empty cache, a wrapped function that returns `None` is
    invoked by BOTH of two calls with identical arguments — the
    `is not None` hit test conflates the stored `None` with a miss — so
    "invokes the underlying function at most once" fails. -/
theorem cached_twice_invokes_once_counterexample :
    ¬ ((sync_wrapper PickleSerializer false false "f" [] [] (.ok pyNone)
          (fun _ => none)).calls +
       (sync_wrapper PickleSerializer false false "f" [] [] (.ok pyNone)
          (sync_wrapper PickleSerializer false false "f" [] [] (.ok pyNone)
            (fun _ => none)).state).calls ≤ 1) := by
  have hloads : PickleSerializer.loads (encodebytes (pickleDumps pyNone)) = some pyNone := by
    show pickleLoads (decodebytes (encodebytes (pickleDumps pyNone))) = some pyNone
    rw [decodebytes_encodebytes _ (pickleDumps_lt pyNone), pickleLoads_pickleDumps]
  have e1 := sync_wrapper_miss_ok_eq PickleSerializer false false "f" [] [] pyNone
    (fun _ => none) (fun _ => none)
    (read_miss PickleSerializer false "f" [] [] (fun _ => none) rfl)
  rw [e1]
  dsimp only
  rw [write_ok_state PickleSerializer false false pyNone "f" [] [] (fun _ => none)
    (encodebytes (pickleDumps pyNone)) rfl rfl]
  have e2 := sync_wrapper_miss_ok_eq PickleSerializer false false "f" [] [] pyNone
    (update (fun _ => none) (make_key false "f" [] []) (some (encodebytes (pickleDumps pyNone))))
    (update (fun _ => none) (make_key false "f" [] []) (some (encodebytes (pickleDumps pyNone))))
    (by
      have := read_hit PickleSerializer false "f" [] []
        (update (fun _ => none) (make_key false "f" [] [])
          (some (encodebytes (pickleDumps pyNone))))
        (encodebytes (pickleDumps pyNone)) pyNone (update_self _ _ _) hloads
      exact this)
  rw [e2]
  dsimp only
  decide

/-- Witness for the amended C1: a concrete round-tripping serializer, a
    non-`None` concrete result, an empty starting cache. -/
theorem cached_twice_invokes_once_witness :
    ((Serializer.mk (fun _ => some [7]) (fun _ => some (.prim (.pint 5)))).dumps
        (.prim (.pint 5)) = some [7]) ∧
    ((Serializer.mk (fun _ => some [7]) (fun _ => some (.prim (.pint 5)))).loads [7] =
        some (.prim (.pint 5))) ∧
    ((.prim (.pint 5) : PyVal) ≠ pyNone) ∧
    ((sync_wrapper (Serializer.mk (fun _ => some [7]) (fun _ => some (.prim (.pint 5))))
          false false "f" [] [] (.ok (.prim (.pint 5)))
          (sync_wrapper (Serializer.mk (fun _ => some [7]) (fun _ => some (.prim (.pint 5))))
            false false "f" [] [] (.ok (.prim (.pint 5))) (fun _ => none)).state).result =
      (sync_wrapper (Serializer.mk (fun _ => some [7]) (fun _ => some (.prim (.pint 5))))
          false false "f" [] [] (.ok (.prim (.pint 5))) (fun _ => none)).result ∧
     (sync_wrapper (Serializer.mk (fun _ => some [7]) (fun _ => some (.prim (.pint 5))))
          false false "f" [] [] (.ok (.prim (.pint 5))) (fun _ => none)).calls +
       (sync_wrapper (Serializer.mk (fun _ => some [7]) (fun _ => some (.prim (.pint 5))))
          false false "f" [] [] (.ok (.prim (.pint 5)))
          (sync_wrapper (Serializer.mk (fun _ => some [7]) (fun _ => some (.prim (.pint 5))))
            false false "f" [] [] (.ok (.prim (.pint 5))) (fun _ => none)).state).calls ≤ 1) :=
  ⟨rfl, rfl, by decide,
   cached_twice_invokes_once (Serializer.mk (fun _ => some [7])
     (fun _ => some (.prim (.pint 5)))) false "f" [] [] (fun _ => none)
     (.prim (.pint 5)) [7] rfl rfl (by decide)⟩

/-! ## Generator run lemmas -/

lemma async_gen_step_eq_sync : async_gen_step = sync_gen_step := rfl

lemma sync_gen_run_consume (ser : Serializer) (fs_fail is_method : Bool) (func_name : String)
    (args : List String) (kwargs : List (String × String)) (src : List PyPrim) :
    ∀ (k : Nat) (pending content : List PyPrim) (s : CacheState),
      (sync_gen_run ser fs_fail is_method func_name args kwargs src k
          ⟨.consume pending content, s⟩).1 = pending.take k ∧
      (sync_gen_run ser fs_fail is_method func_name args kwargs src k
          ⟨.consume pending content, s⟩).2.cache =
        (if pending.length < k then
          CacheWrapper_write ser fs_fail is_method (.plist (content ++ pending))
            func_name args kwargs s
         else s) := by
  intro k
  induction k with
  | zero => intro pending content s; simp [sync_gen_run]
  | succ k ih =>
      intro pending content s
      cases pending with
      | nil => simp [sync_gen_run, sync_gen_step]
      | cons p rest =>
          have ihr := ih rest (content ++ [p]) s
          simp only [sync_gen_run, sync_gen_step]
          constructor
          · simp only [List.take_succ_cons]
            rw [← ihr.1]
          · rw [ihr.2]
            simp only [List.length_cons]
            by_cases hlt : rest.length < k
            · rw [if_pos hlt, if_pos (by omega)]
              simp
            · rw [if_neg hlt, if_neg (by omega)]

lemma async_gen_run_eq_sync : async_gen_run = sync_gen_run := by
  funext ser fs_fail is_method func_name args kwargs src k st
  induction k generalizing st with
  | zero => rfl
  | succ k ih =>
      simp only [async_gen_run, sync_gen_run, async_gen_step_eq_sync]
      cases sync_gen_step ser fs_fail is_method func_name args kwargs src st with
      | mk out st2 => cases out <;> simp [ih]

/-- Claim C5: for both generator wrapper variants on a cache miss, the
    items yielded across `k` resumptions are exactly the first `k` source
    items in order — every item is forwarded to the consumer before any
    entry is persisted —, the cache is untouched while the source is not
    yet exhausted (so a consumer abandoning iteration, or cancelled, after
    at most `src.length` resumptions leaves no entry for the key), and
    only a resumption past the last item runs the write of the full
    accumulated sequence. -/
theorem gen_writes_only_after_exhaustion (ser : Serializer) (fs_fail is_method : Bool)
    (func_name : String) (args : List String) (kwargs : List (String × String))
    (src : List PyPrim) (s : CacheState)
    (h : s (make_key is_method func_name args kwargs) = none) :
    (∀ k,
      (sync_gen_run ser fs_fail is_method func_name args kwargs src k ⟨.start, s⟩).1 =
        src.take k ∧
      (k ≤ src.length →
        (sync_gen_run ser fs_fail is_method func_name args kwargs src k
          ⟨.start, s⟩).2.cache = s) ∧
      (src.length < k →
        (sync_gen_run ser fs_fail is_method func_name args kwargs src k
          ⟨.start, s⟩).2.cache =
          CacheWrapper_write ser fs_fail is_method (.plist src) func_name args kwargs s)) ∧
    (∀ k,
      (async_gen_run ser fs_fail is_method func_name args kwargs src k ⟨.start, s⟩).1 =
        src.take k ∧
      (k ≤ src.length →
        (async_gen_run ser fs_fail is_method func_name args kwargs src k
          ⟨.start, s⟩).2.cache = s) ∧
      (src.length < k →
        (async_gen_run ser fs_fail is_method func_name args kwargs src k
          ⟨.start, s⟩).2.cache =
          CacheWrapper_write ser fs_fail is_method (.plist src) func_name args kwargs s)) := by
  have hr := read_miss ser is_method func_name args kwargs s h
  have hsync : ∀ k,
      (sync_gen_run ser fs_fail is_method func_name args kwargs src k ⟨.start, s⟩).1 =
        src.take k ∧
      (k ≤ src.length →
        (sync_gen_run ser fs_fail is_method func_name args kwargs src k
          ⟨.start, s⟩).2.cache = s) ∧
      (src.length < k →
        (sync_gen_run ser fs_fail is_method func_name args kwargs src k
          ⟨.start, s⟩).2.cache =
          CacheWrapper_write ser fs_fail is_method (.plist src) func_name args kwargs s) := by
    intro k
    cases k with
    | zero =>
        refine ⟨by simp [sync_gen_run], fun _ => by simp [sync_gen_run], fun hlt => ?_⟩
        exact absurd hlt (Nat.not_lt_zero _)
    | succ k =>
        cases src with
        | nil =>
            refine ⟨?_, fun hle => by simp at hle, fun _ => ?_⟩
            · simp [sync_gen_run, sync_gen_step, hr]
            · simp [sync_gen_run, sync_gen_step, hr]
        | cons p rest =>
            have hc := sync_gen_run_consume ser fs_fail is_method func_name args kwargs
              (p :: rest) k rest [p] s
            refine ⟨?_, fun hle => ?_, fun hlt => ?_⟩
            · simp only [sync_gen_run, sync_gen_step, hr, List.take_succ_cons]
              rw [if_neg (by simp)]
              simp only [ne_eq]
              rw [← hc.1]
            · simp only [sync_gen_run, sync_gen_step, hr]
              rw [if_neg (by simp)]
              simp only [List.length_cons] at hle
              rw [hc.2, if_neg (by omega)]
            · simp only [sync_gen_run, sync_gen_step, hr]
              rw [if_neg (by simp)]
              simp only [List.length_cons] at hlt
              rw [hc.2, if_pos (by omega)]
              simp
  exact ⟨hsync, by rw [async_gen_run_eq_sync]; exact hsync⟩

/-- Witness for C5: empty cache (a miss), a concrete three-item source,
    checked by applying the theorem. -/
theorem gen_writes_only_after_exhaustion_witness :
    (((fun _ => none) : CacheState) (make_key false "f" [] []) = none) ∧
    (∀ k,
      (sync_gen_run (Serializer.mk (fun _ => some [1]) (fun _ => none)) false false "f" [] []
          [.pint 3, .pint 4, .pint 5] k ⟨.start, fun _ => none⟩).1 =
        ([.pint 3, .pint 4, .pint 5] : List PyPrim).take k ∧
      (k ≤ ([.pint 3, .pint 4, .pint 5] : List PyPrim).length →
        (sync_gen_run (Serializer.mk (fun _ => some [1]) (fun _ => none)) false false "f" [] []
          [.pint 3, .pint 4, .pint 5] k ⟨.start, fun _ => none⟩).2.cache = (fun _ => none)) ∧
      (([.pint 3, .pint 4, .pint 5] : List PyPrim).length < k →
        (sync_gen_run (Serializer.mk (fun _ => some [1]) (fun _ => none)) false false "f" [] []
          [.pint 3, .pint 4, .pint 5] k ⟨.start, fun _ => none⟩).2.cache =
          CacheWrapper_write (Serializer.mk (fun _ => some [1]) (fun _ => none)) false false
            (.plist [.pint 3, .pint 4, .pint 5]) "f" [] [] (fun _ => none))) :=
  ⟨rfl,
   (gen_writes_only_after_exhaustion (Serializer.mk (fun _ => some [1]) (fun _ => none))
     false false "f" [] [] [.pint 3, .pint 4, .pint 5] (fun _ => none) rfl).1⟩
